import Mathlib

/-!
Verification of the composite "network inventory" program (`template.py`).

The program models a tree of network infrastructure (a `Network` of
`Computer`s, each holding `Address`es and hardware components `CPU`,
`Memory`, `Disk`-with-partitions), renders it as an ASCII tree and deep
clones it.

Embedding conventions:
* A Python output stream is embedded as the `String` of its accumulated
  contents; `os.write(s)` becomes `os ++ s`, and every `print_me` takes the
  stream contents `os` and returns the new contents.
* `for i, e in enumerate(xs)` loops become folds over `xs.enum`.
* Python `is_last`, `no_slash`, `is_root` keyword parameters are kept as
  explicit `Bool` arguments (call sites pass the Python default where the
  source omits them).
* Machine-level integers are `Nat` (the program only ever constructs
  non-negative sizes/counts and performs no arithmetic on them beyond
  printing); `Disk.SSD = 0` and `Disk.MAGNETIC = 1` mirror the class
  constants.
-/

namespace Template

/-- The `Address` class: a wrapper around the textual address string. -/
structure Address where
  address : String
deriving DecidableEq

/-- The `CPU` component class (fields `cores`, `mhz`). -/
structure CPU where
  cores : Nat
  mhz : Nat
deriving DecidableEq

/-- The `Memory` component class (field `size`). -/
structure Memory where
  size : Nat
deriving DecidableEq

/-- The `Disk` component class: storage type constant, size, and the
ordered partition list of `(size, name)` pairs. -/
structure Disk where
  storage_type : Nat
  size : Nat
  partitions : List (Nat × String)
deriving DecidableEq

/-- `Disk.SSD = 0`, the class constant. -/
def Disk.SSD : Nat := 0

/-- `Disk.MAGNETIC = 1`, the class constant. -/
def Disk.MAGNETIC : Nat := 1

/-- The closed set of concrete `Component` subclasses that can be attached
to a `Computer` (`CPU`, `Memory`, `Disk`). -/
inductive Component where
  | cpu (c : CPU)
  | memory (m : Memory)
  | disk (d : Disk)
deriving DecidableEq

/-- The `Computer` class: a name plus the two ordered child sequences
`addresses` and `components`. (The unused inherited `items` list and the
unused `numeric_val` field are omitted: no method of the program ever reads
or writes them on a `Computer`.) -/
structure Computer where
  name : String
  addresses : List Address
  components : List Component
deriving DecidableEq

/-- The `Network` class: a name plus the ordered `computers` sequence. -/
structure Network where
  name : String
  computers : List Computer
deriving DecidableEq

/-- `Network.__init__`. -/
def Network.init (name : String) : Network :=
  ⟨name, []⟩

/-- `Computer.__init__`. -/
def Computer.init (name : String) : Computer :=
  ⟨name, [], []⟩

/-- `Disk.__init__`. -/
def Disk.init (storage_type size : Nat) : Disk :=
  ⟨storage_type, size, []⟩

/-- `CPU.__init__`. -/
def CPU.init (cores mhz : Nat) : CPU :=
  ⟨cores, mhz⟩

/-- `Memory.__init__`. -/
def Memory.init (size : Nat) : Memory :=
  ⟨size⟩

/-- `Computer.add_address`: appends `Address(addr)` and returns `self`. -/
def Computer.add_address (c : Computer) (addr : String) : Computer :=
  { c with addresses := c.addresses ++ [Address.mk addr] }

/-- `Computer.add_component`: appends the component and returns `self`. -/
def Computer.add_component (c : Computer) (comp : Component) : Computer :=
  { c with components := c.components ++ [comp] }

/-- `Network.add_computer`: appends the computer and returns `self`. -/
def Network.add_computer (n : Network) (comp : Computer) : Network :=
  { n with computers := n.computers ++ [comp] }

/-- `Disk.add_partition`: appends the `(size, name)` pair and returns `self`. -/
def Disk.add_partition (d : Disk) (size : Nat) (name : String) : Disk :=
  { d with partitions := d.partitions ++ [(size, name)] }

/-- `Network.find_computer`: first computer whose name equals the query,
else `None`. -/
def Network.find_computer (n : Network) (name : String) : Option Computer :=
  n.computers.find? (fun comp => comp.name == name)

/-- `Address.print_me`: one line `{prefix}{connector}{address}\n`. -/
def Address.print_me (a : Address) (os pfx : String) (is_last no_slash is_root : Bool) : String :=
  os ++ pfx ++ (if is_last then "\\-" else "+-") ++ a.address ++ "\n"

/-- `CPU.print_me`: one line `{prefix}{connector}CPU, {cores} cores @ {mhz}MHz\n`. -/
def CPU.print_me (c : CPU) (os pfx : String) (is_last no_slash is_root : Bool) : String :=
  os ++ pfx ++ (if is_last then "\\-" else "+-") ++ "CPU, " ++ toString c.cores
     ++ " cores @ " ++ toString c.mhz ++ "MHz\n"

/-- `Memory.print_me`: one line `{prefix}{connector}Memory, {size} MiB\n`. -/
def Memory.print_me (m : Memory) (os pfx : String) (is_last no_slash is_root : Bool) : String :=
  os ++ pfx ++ (if is_last then "\\-" else "+-") ++ "Memory, " ++ toString m.size ++ " MiB\n"

/-- `Disk.print_me`: heading line with the `SSD`/`HDD` label, then one line
per partition with its zero-based index, the last one with the corner
connector. -/
def Disk.print_me (d : Disk) (os pfx : String) (is_last no_slash is_root : Bool) : String :=
  let disk_type := if d.storage_type == Disk.SSD then "SSD" else "HDD"
  let os := os ++ pfx ++ (if is_last then "\\-" else "+-") ++ disk_type ++ ", "
               ++ toString d.size ++ " GiB\n"
  let new_pfx := pfx ++ (if is_last then "  " else "| ")
  (d.partitions.enum).foldl
    (fun os x =>
      os ++ new_pfx ++ (if x.1 == d.partitions.length - 1 then "\\-" else "+-")
         ++ "[" ++ toString x.1 ++ "]: " ++ toString x.2.1 ++ " GiB, " ++ x.2.2 ++ "\n")
    os

/-- Dynamic dispatch of `print_me` over the concrete component classes. -/
def Component.print_me : Component → String → String → Bool → Bool → Bool → String
  | .cpu c, os, pfx, is_last, no_slash, is_root => c.print_me os pfx is_last no_slash is_root
  | .memory m, os, pfx, is_last, no_slash, is_root => m.print_me os pfx is_last no_slash is_root
  | .disk d, os, pfx, is_last, no_slash, is_root => d.print_me os pfx is_last no_slash is_root

/-- `Computer.print_me`: heading `Host:` line, then the addresses (an
address is last only when it is the final address and there are no
components), then the components (the final one is last; `no_slash` is
passed as `not self.addresses`). -/
def Computer.print_me (c : Computer) (os pfx : String) (is_last no_slash is_root : Bool) : String :=
  let new_pfx := pfx ++ (if is_last then "  " else "| ")
  let os := os ++ pfx ++ (if is_last then "\\-" else "+-") ++ "Host: " ++ c.name ++ "\n"
  let os := (c.addresses.enum).foldl
    (fun os x =>
      x.2.print_me os new_pfx ((x.1 == c.addresses.length - 1) && c.components.isEmpty)
        false false)
    os
  (c.components.enum).foldl
    (fun os x =>
      x.2.print_me os new_pfx (x.1 == c.components.length - 1) c.addresses.isEmpty false)
    os

/-- `Network.print_me`: unindented `Network:` heading, then every computer
at the given prefix, the final one with `is_last = True`. -/
def Network.print_me (n : Network) (os pfx : String) (is_last no_slash is_root : Bool) : String :=
  let os := os ++ "Network: " ++ n.name ++ "\n"
  (n.computers.enum).foldl
    (fun os x => x.2.print_me os pfx (x.1 == n.computers.length - 1) false false)
    os

/-- `Printable.__str__` applied to a `Network`: print into a fresh buffer
with the default `prefix`/`is_last`/`no_slash` and `is_root = True`, and
return the buffer contents. -/
def Network.str (n : Network) : String :=
  n.print_me "" "" false false true

/-- `Address.clone`. -/
def Address.clone (a : Address) : Address :=
  Address.mk a.address

/-- `CPU.clone`. -/
def CPU.clone (c : CPU) : CPU :=
  CPU.init c.cores c.mhz

/-- `Memory.clone`. -/
def Memory.clone (m : Memory) : Memory :=
  Memory.init m.size

/-- `Disk.clone`: fresh disk with the same type and size, partitions
deep-copied (they are plain value pairs). -/
def Disk.clone (d : Disk) : Disk :=
  { Disk.init d.storage_type d.size with partitions := d.partitions }

/-- Dynamic dispatch of `clone` over the concrete component classes. -/
def Component.clone : Component → Component
  | .cpu c => .cpu c.clone
  | .memory m => .memory m.clone
  | .disk d => .disk d.clone

/-- `Computer.clone`: fresh computer with the same name, addresses and
components element-wise cloned. -/
def Computer.clone (c : Computer) : Computer :=
  { Computer.init c.name with
    addresses := c.addresses.map Address.clone
    components := c.components.map Component.clone }

/-- `Network.clone`: fresh network with the same name, computers
element-wise cloned. -/
def Network.clone (n : Network) : Network :=
  { Network.init n.name with computers := n.computers.map Computer.clone }

/-- The network built by `main()`: `MISIS network` with `server1.misis.ru`
(one address, CPU, Memory) and `server2.misis.ru` (one address, CPU, and a
magnetic disk with two partitions). -/
def exampleNetwork : Network :=
  ((Network.init "MISIS network").add_computer
      ((((Computer.init "server1.misis.ru").add_address "192.168.1.1").add_component
          (Component.cpu (CPU.init 4 2500))).add_component
        (Component.memory (Memory.init 16000)))).add_computer
    ((((Computer.init "server2.misis.ru").add_address "10.0.0.1").add_component
        (Component.cpu (CPU.init 8 3200))).add_component
      (Component.disk
        (((Disk.init Disk.MAGNETIC 2000).add_partition 500 "system").add_partition
          1500 "data")))

/-! Helper lemmas about the embedding of stream writes. -/

/-- Concatenation of a list of written chunks. -/
def sjoin : List String → String
  | [] => ""
  | s :: t => s ++ sjoin t

theorem str_append_assoc (a b c : String) : a ++ b ++ c = a ++ (b ++ c) := by
  apply String.ext
  simp

/-- A fold whose body only appends text to the stream equals the initial
stream followed by the concatenation of the per-element texts. -/
theorem foldl_write {α : Type} (g : String → α → String) (f : α → String)
    (h : ∀ os a, g os a = os ++ f a) :
    ∀ (l : List α) (os : String), l.foldl g os = os ++ sjoin (l.map f) := by
  intro l
  induction l with
  | nil =>
    intro os
    simp [sjoin]
  | cons a t ih =>
    intro os
    simp only [List.foldl_cons, List.map_cons, sjoin]
    rw [h, ih, str_append_assoc]

theorem addr_print_out (a : Address) (os pfx : String) (l ns r : Bool) :
    a.print_me os pfx l ns r = os ++ a.print_me "" pfx l ns r := by
  simp [Address.print_me, str_append_assoc, String.empty_append]

theorem cpu_print_out (c : CPU) (os pfx : String) (l ns r : Bool) :
    c.print_me os pfx l ns r = os ++ c.print_me "" pfx l ns r := by
  simp [CPU.print_me, str_append_assoc, String.empty_append]

theorem mem_print_out (m : Memory) (os pfx : String) (l ns r : Bool) :
    m.print_me os pfx l ns r = os ++ m.print_me "" pfx l ns r := by
  simp [Memory.print_me, str_append_assoc, String.empty_append]

theorem disk_loop (np : String) (len : Nat) (l : List (Nat × Nat × String)) (os : String) :
    l.foldl
      (fun os x =>
        os ++ np ++ (if x.1 == len - 1 then "\\-" else "+-")
           ++ "[" ++ toString x.1 ++ "]: " ++ toString x.2.1 ++ " GiB, " ++ x.2.2 ++ "\n")
      os
    = os ++ sjoin (l.map fun x =>
        np ++ (if x.1 == len - 1 then "\\-" else "+-")
           ++ "[" ++ toString x.1 ++ "]: " ++ toString x.2.1 ++ " GiB, " ++ x.2.2 ++ "\n") := by
  apply foldl_write
  intro os x
  simp [str_append_assoc]

/-- Full description of `Disk.print_me`: heading line plus one line per
partition. -/
theorem disk_print_spec (d : Disk) (os pfx : String) (l ns r : Bool) :
    d.print_me os pfx l ns r =
      os ++ pfx ++ (if l then "\\-" else "+-")
         ++ (if d.storage_type == Disk.SSD then "SSD" else "HDD") ++ ", "
         ++ toString d.size ++ " GiB\n"
      ++ sjoin ((d.partitions.enum).map fun x =>
          (pfx ++ (if l then "  " else "| "))
          ++ (if x.1 == d.partitions.length - 1 then "\\-" else "+-")
          ++ "[" ++ toString x.1 ++ "]: " ++ toString x.2.1 ++ " GiB, " ++ x.2.2 ++ "\n") := by
  simp only [Disk.print_me]
  rw [disk_loop]

theorem disk_print_out (d : Disk) (os pfx : String) (l ns r : Bool) :
    d.print_me os pfx l ns r = os ++ d.print_me "" pfx l ns r := by
  rw [disk_print_spec, disk_print_spec]
  simp [str_append_assoc, String.empty_append]

theorem component_print_out (k : Component) (os pfx : String) (l ns r : Bool) :
    k.print_me os pfx l ns r = os ++ k.print_me "" pfx l ns r := by
  cases k with
  | cpu c => exact cpu_print_out c os pfx l ns r
  | memory m => exact mem_print_out m os pfx l ns r
  | disk d => exact disk_print_out d os pfx l ns r

theorem addr_loop (np : String) (len : Nat) (ce : Bool) (l : List (Nat × Address)) (os : String) :
    l.foldl (fun os x => x.2.print_me os np ((x.1 == len - 1) && ce) false false) os
    = os ++ sjoin (l.map fun x => x.2.print_me "" np ((x.1 == len - 1) && ce) false false) := by
  apply foldl_write
  intro os x
  rw [addr_print_out]

theorem comp_loop (np : String) (len : Nat) (ae : Bool) (l : List (Nat × Component)) (os : String) :
    l.foldl (fun os x => x.2.print_me os np (x.1 == len - 1) ae false) os
    = os ++ sjoin (l.map fun x => x.2.print_me "" np (x.1 == len - 1) ae false) := by
  apply foldl_write
  intro os x
  rw [component_print_out]

/-- Full description of `Computer.print_me`: heading line, then the
addresses and the components with their last-child flags. -/
theorem computer_print_spec (c : Computer) (os pfx : String) (l ns r : Bool) :
    c.print_me os pfx l ns r =
      os ++ pfx ++ (if l then "\\-" else "+-") ++ "Host: " ++ c.name ++ "\n"
      ++ sjoin ((c.addresses.enum).map fun x =>
          x.2.print_me "" (pfx ++ (if l then "  " else "| "))
            ((x.1 == c.addresses.length - 1) && c.components.isEmpty) false false)
      ++ sjoin ((c.components.enum).map fun x =>
          x.2.print_me "" (pfx ++ (if l then "  " else "| "))
            (x.1 == c.components.length - 1) c.addresses.isEmpty false) := by
  simp only [Computer.print_me]
  rw [addr_loop, comp_loop, str_append_assoc]

theorem computer_print_out (c : Computer) (os pfx : String) (l ns r : Bool) :
    c.print_me os pfx l ns r = os ++ c.print_me "" pfx l ns r := by
  rw [computer_print_spec, computer_print_spec]
  simp [str_append_assoc, String.empty_append]

theorem net_loop (pfx : String) (len : Nat) (l : List (Nat × Computer)) (os : String) :
    l.foldl (fun os x => x.2.print_me os pfx (x.1 == len - 1) false false) os
    = os ++ sjoin (l.map fun x => x.2.print_me "" pfx (x.1 == len - 1) false false) := by
  apply foldl_write
  intro os x
  rw [computer_print_out]

/-- Full description of `Network.print_me`: heading line, then every
computer, the final one flagged last. -/
theorem network_print_spec (n : Network) (os pfx : String) (l ns r : Bool) :
    n.print_me os pfx l ns r =
      os ++ "Network: " ++ n.name ++ "\n"
      ++ sjoin ((n.computers.enum).map fun x =>
          x.2.print_me "" pfx (x.1 == n.computers.length - 1) false false) := by
  simp only [Network.print_me]
  rw [net_loop]

theorem network_print_out (n : Network) (os pfx : String) (l ns r : Bool) :
    n.print_me os pfx l ns r = os ++ n.print_me "" pfx l ns r := by
  rw [network_print_spec, network_print_spec]
  simp [str_append_assoc, String.empty_append]

/-! Clone is structurally the identity on the value level (every scalar is
value-copied and every child cloned recursively). -/

theorem addr_clone_eq (a : Address) : a.clone = a := rfl

theorem cpu_clone_eq (c : CPU) : c.clone = c := rfl

theorem mem_clone_eq (m : Memory) : m.clone = m := rfl

theorem disk_clone_eq (d : Disk) : d.clone = d := rfl

theorem component_clone_eq (k : Component) : k.clone = k := by
  cases k <;> rfl

theorem clone_addresses (as : List Address) : as.map Address.clone = as := by
  induction as with
  | nil => rfl
  | cons a t ih => simp [addr_clone_eq, ih]

theorem clone_components (ks : List Component) : ks.map Component.clone = ks := by
  induction ks with
  | nil => rfl
  | cons k t ih => simp [component_clone_eq, ih]

theorem computer_clone_eq (c : Computer) : c.clone = c := by
  simp only [Computer.clone, Computer.init, clone_addresses, clone_components]

theorem clone_computers (cs : List Computer) : cs.map Computer.clone = cs := by
  induction cs with
  | nil => rfl
  | cons c t ih => simp [computer_clone_eq, ih]

theorem network_clone_eq (n : Network) : n.clone = n := by
  simp only [Network.clone, Network.init, clone_computers]

theorem sjoin_append (l1 l2 : List String) : sjoin (l1 ++ l2) = sjoin l1 ++ sjoin l2 := by
  induction l1 with
  | nil => simp [sjoin, String.empty_append]
  | cons s t ih => simp [sjoin, ih, str_append_assoc]

theorem mem_enum_lt {α : Type} (l : List α) (x : Nat × α) (hx : x ∈ l.enum) :
    x.1 < l.length := by
  rw [List.mem_enum_iff_getElem?] at hx
  exact (List.getElem?_eq_some.mp hx).1

/-- A successful `List.find?` returns an element satisfying the test that
is preceded only by elements failing it. -/
theorem find_first {α : Type} (p : α → Bool) :
    ∀ (l : List α) (c : α), l.find? p = some c →
      p c = true ∧ ∃ pre post, l = pre ++ c :: post ∧ ∀ x ∈ pre, p x = false := by
  intro l
  induction l with
  | nil =>
    intro c h
    cases h
  | cons a t ih =>
    intro c h
    by_cases ha : p a = true
    · simp only [List.find?_cons, ha] at h
      injection h with h
      subst h
      exact ⟨ha, [], t, rfl, by intro x hx; cases hx⟩
    · have ha' : p a = false := by simpa using ha
      simp only [List.find?_cons, ha'] at h
      obtain ⟨h1, pre, post, h2, h3⟩ := ih c h
      refine ⟨h1, a :: pre, post, by rw [h2]; rfl, ?_⟩
      intro x hx
      rcases List.mem_cons.mp hx with hx | hx
      · subst hx
        exact ha'
      · exact h3 x hx

/-! The claims. -/

set_option maxRecDepth 100000 in
/-- Claim C1: rendering the network built exactly as in the end-to-end
scenario (`MISIS network` with `server1.misis.ru` and `server2.misis.ru` as
in `main()`) produces exactly the expected text, every line terminated by a
line break and with no trailing blank line after the last rendered line. -/
theorem c1_end_to_end_render :
    exampleNetwork.str =
      "Network: MISIS network\n+-Host: server1.misis.ru\n| +-192.168.1.1\n| +-CPU, 4 cores @ 2500MHz\n| \\-Memory, 16000 MiB\n\\-Host: server2.misis.ru\n  +-10.0.0.1\n  +-CPU, 8 cores @ 3200MHz\n  \\-HDD, 2000 GiB\n    +-[0]: 500 GiB, system\n    \\-[1]: 1500 GiB, data\n" := by
  decide

/-- Claim C2: for every tree, rendering the clone yields exactly the same
text as rendering the original, at the root (`__str__`) and for every node
kind at every position. -/
theorem c2_clone_fidelity :
    (∀ n : Network, n.clone.str = n.str)
  ∧ (∀ (n : Network) (os pfx : String) (l ns r : Bool),
      n.clone.print_me os pfx l ns r = n.print_me os pfx l ns r)
  ∧ (∀ (c : Computer) (os pfx : String) (l ns r : Bool),
      c.clone.print_me os pfx l ns r = c.print_me os pfx l ns r)
  ∧ (∀ (k : Component) (os pfx : String) (l ns r : Bool),
      k.clone.print_me os pfx l ns r = k.print_me os pfx l ns r)
  ∧ (∀ (d : Disk) (os pfx : String) (l ns r : Bool),
      d.clone.print_me os pfx l ns r = d.print_me os pfx l ns r)
  ∧ (∀ (a : Address) (os pfx : String) (l ns r : Bool),
      a.clone.print_me os pfx l ns r = a.print_me os pfx l ns r) := by
  refine ⟨?_, ?_, ?_, ?_, ?_, ?_⟩
  · intro n
    rw [network_clone_eq]
  · intro n os pfx l ns r
    rw [network_clone_eq]
  · intro c os pfx l ns r
    rw [computer_clone_eq]
  · intro k os pfx l ns r
    rw [component_clone_eq]
  · intro d os pfx l ns r
    rw [disk_clone_eq]
  · intro a os pfx l ns r
    rw [addr_clone_eq]

/-- Claim C5: `find_computer` scans the computer sequence linearly and
returns the first computer whose name equals the query exactly; when no
name matches it returns `none` (and, being a total function, it cannot
raise). -/
theorem c5_find_computer (n : Network) (nm : String) :
    (n.find_computer nm = none ↔ ∀ c ∈ n.computers, c.name ≠ nm)
  ∧ (∀ c, n.find_computer nm = some c →
      c.name = nm
      ∧ ∃ pre post, n.computers = pre ++ c :: post ∧ ∀ c' ∈ pre, c'.name ≠ nm) := by
  constructor
  · simp only [Network.find_computer]
    rw [List.find?_eq_none]
    constructor
    · intro h c hc
      have := h c hc
      simpa using this
    · intro h c hc
      simpa using h c hc
  · intro c h
    simp only [Network.find_computer] at h
    obtain ⟨h1, pre, post, h2, h3⟩ :=
      find_first (fun comp => comp.name == nm) n.computers c h
    refine ⟨by simpa using h1, pre, post, h2, ?_⟩
    intro c' hc'
    simpa using h3 c' hc'

/-- Witness for C5 on the `main()` network: the query `server2.misis.ru`
returns the first (here: only) computer of that name, and an absent name
returns `none`. -/
theorem c5_find_computer_witness :
    (∃ c, exampleNetwork.find_computer "server2.misis.ru" = some c
       ∧ c.name = "server2.misis.ru"
       ∧ ∃ pre post, exampleNetwork.computers = pre ++ c :: post
           ∧ ∀ c' ∈ pre, c'.name ≠ "server2.misis.ru")
  ∧ exampleNetwork.find_computer "no-such-host" = none := by
  constructor
  · exact ⟨_, rfl, (c5_find_computer exampleNetwork "server2.misis.ru").2 _ rfl⟩
  · exact (c5_find_computer exampleNetwork "no-such-host").1.mpr (by decide)

/-- Claim C7: each leaf node (`Address`, `CPU`, `Memory`) renders exactly
one line `{prefix}{connector}{formatted fact}\n`, the connector selected by
`is_last`, with the fixed per-kind fact template. -/
theorem c7_leaf_line_format :
    (∀ (a : Address) (os pfx : String) (l ns r : Bool),
      a.print_me os pfx l ns r
        = os ++ (pfx ++ (if l then "\\-" else "+-") ++ a.address ++ "\n"))
  ∧ (∀ (c : CPU) (os pfx : String) (l ns r : Bool),
      c.print_me os pfx l ns r
        = os ++ (pfx ++ (if l then "\\-" else "+-")
            ++ ("CPU, " ++ toString c.cores ++ " cores @ " ++ toString c.mhz ++ "MHz")
            ++ "\n"))
  ∧ (∀ (m : Memory) (os pfx : String) (l ns r : Bool),
      m.print_me os pfx l ns r
        = os ++ (pfx ++ (if l then "\\-" else "+-")
            ++ ("Memory, " ++ toString m.size ++ " MiB") ++ "\n")) := by
  refine ⟨?_, ?_, ?_⟩
  · intro a os pfx l ns r
    simp [Address.print_me, str_append_assoc]
  · intro c os pfx l ns r
    simp [CPU.print_me, str_append_assoc,
      show ("MHz" ++ "\n" : String) = "MHz\n" from rfl]
  · intro m os pfx l ns r
    simp [Memory.print_me, str_append_assoc,
      show (" MiB" ++ "\n" : String) = " MiB\n" from rfl]

/-- Claim C8: rendering is deterministic as a two-run property: two calls
with the same tree and the same arguments write the same text, whatever the
prior contents of the two streams (in particular two runs into fresh
streams yield identical text). -/
theorem c8_two_run_determinism (n : Network) (os₁ os₂ pfx : String) (l ns r : Bool) :
    ∃ w, n.print_me os₁ pfx l ns r = os₁ ++ w ∧ n.print_me os₂ pfx l ns r = os₂ ++ w :=
  ⟨n.print_me "" pfx l ns r, network_print_out n os₁ pfx l ns r,
    network_print_out n os₂ pfx l ns r⟩

/-- Claim C9: the `no_slash` argument (and the `is_root` argument) has no
effect on the text written by any node kind, and `Network.print_me` writes
the same text for all values of `is_last` and `is_root`. -/
theorem c9_unused_flags :
    (∀ (a : Address) (os pfx : String) (l ns ns' r r' : Bool),
      a.print_me os pfx l ns r = a.print_me os pfx l ns' r')
  ∧ (∀ (c : CPU) (os pfx : String) (l ns ns' r r' : Bool),
      c.print_me os pfx l ns r = c.print_me os pfx l ns' r')
  ∧ (∀ (m : Memory) (os pfx : String) (l ns ns' r r' : Bool),
      m.print_me os pfx l ns r = m.print_me os pfx l ns' r')
  ∧ (∀ (d : Disk) (os pfx : String) (l ns ns' r r' : Bool),
      d.print_me os pfx l ns r = d.print_me os pfx l ns' r')
  ∧ (∀ (k : Component) (os pfx : String) (l ns ns' r r' : Bool),
      k.print_me os pfx l ns r = k.print_me os pfx l ns' r')
  ∧ (∀ (c : Computer) (os pfx : String) (l ns ns' r r' : Bool),
      c.print_me os pfx l ns r = c.print_me os pfx l ns' r')
  ∧ (∀ (n : Network) (os pfx : String) (l l' ns ns' r r' : Bool),
      n.print_me os pfx l ns r = n.print_me os pfx l' ns' r') := by
  refine ⟨fun _ _ _ _ _ _ _ _ => rfl, fun _ _ _ _ _ _ _ _ => rfl,
    fun _ _ _ _ _ _ _ _ => rfl, fun _ _ _ _ _ _ _ _ => rfl, ?_,
    fun _ _ _ _ _ _ _ _ => rfl, fun _ _ _ _ _ _ _ _ _ => rfl⟩
  intro k os pfx l ns ns' r r'
  cases k <;> rfl

/-- Claim C6: a `Disk` renders one heading line with the `SSD`/`HDD` label
and its size, then one line per partition in insertion order with its
zero-based index, the child prefix extending the disk's own prefix by two
spaces when the disk is last and by a bar otherwise; the last partition
gets the corner connector, all earlier ones the tee connector. -/
theorem c6_disk_render (d : Disk) (os pfx : String) (l ns r : Bool) :
    (d.print_me os pfx l ns r =
      os ++ pfx ++ (if l then "\\-" else "+-")
         ++ (if d.storage_type == Disk.SSD then "SSD" else "HDD") ++ ", "
         ++ toString d.size ++ " GiB\n"
      ++ sjoin ((d.partitions.enum).map fun x =>
          (pfx ++ (if l then "  " else "| "))
          ++ (if x.1 == d.partitions.length - 1 then "\\-" else "+-")
          ++ "[" ++ toString x.1 ++ "]: " ++ toString x.2.1 ++ " GiB, " ++ x.2.2 ++ "\n"))
  ∧ (∀ ps q, d.partitions = ps ++ [q] →
      d.print_me os pfx l ns r =
        os ++ pfx ++ (if l then "\\-" else "+-")
           ++ (if d.storage_type == Disk.SSD then "SSD" else "HDD") ++ ", "
           ++ toString d.size ++ " GiB\n"
        ++ sjoin ((ps.enum).map fun x =>
            (pfx ++ (if l then "  " else "| ")) ++ "+-"
            ++ "[" ++ toString x.1 ++ "]: " ++ toString x.2.1 ++ " GiB, " ++ x.2.2 ++ "\n")
        ++ ((pfx ++ (if l then "  " else "| ")) ++ "\\-"
            ++ "[" ++ toString ps.length ++ "]: " ++ toString q.1 ++ " GiB, " ++ q.2 ++ "\n")) := by
  constructor
  · exact disk_print_spec d os pfx l ns r
  · intro ps q hp
    rw [disk_print_spec, hp]
    rw [List.enum_append]
    have hcongr :
        (ps.enum).map (fun x =>
            (pfx ++ (if l then "  " else "| "))
            ++ (if x.1 == (ps ++ [q]).length - 1 then "\\-" else "+-")
            ++ "[" ++ toString x.1 ++ "]: " ++ toString x.2.1 ++ " GiB, " ++ x.2.2 ++ "\n")
          = (ps.enum).map (fun x =>
            (pfx ++ (if l then "  " else "| ")) ++ "+-"
            ++ "[" ++ toString x.1 ++ "]: " ++ toString x.2.1 ++ " GiB, " ++ x.2.2 ++ "\n") := by
      apply List.map_congr_left
      intro x hx
      have hlt := mem_enum_lt ps x hx
      have hne : (x.1 == (ps ++ [q]).length - 1) = false := by
        simp only [List.length_append, List.length_cons, List.length_nil,
          Nat.add_sub_cancel]
        simpa using Nat.ne_of_lt hlt
      rw [hne]
      simp
    rw [List.map_append, sjoin_append]
    rw [hcongr]
    simp only [List.enumFrom_cons, List.enumFrom_nil, List.map_cons, List.map_nil]
    have hlen : (ps.length == (ps ++ [q]).length - 1) = true := by
      simp
    rw [hlen]
    simp [sjoin, str_append_assoc, String.append_empty]

/-- Witness for C6 at a concrete magnetic disk with two partitions: the
first gets the tee connector, the second the corner connector. -/
theorem c6_disk_render_witness :
    (((Disk.init Disk.MAGNETIC 2000).add_partition 500 "system").add_partition
        1500 "data").print_me "" "  " true false false
      = "  \\-HDD, 2000 GiB\n    +-[0]: 500 GiB, system\n    \\-[1]: 1500 GiB, data\n" := by
  have h := (c6_disk_render
      (((Disk.init Disk.MAGNETIC 2000).add_partition 500 "system").add_partition
        1500 "data") "" "  " true false false).2 [(500, "system")] (1500, "data") rfl
  rw [h]
  decide

/-- Claim C4: the last-child flag a `Computer` passes to a child is
computed over the combined addresses-then-components sequence: an address
is flagged last only when it is the final address and there are zero
components, a component only when it is the final component; in particular
with at least one address and at least one component the last address is
rendered non-terminal and the last component terminal. -/
theorem c4_combined_last_child (c : Computer) (os pfx : String) (l ns r : Bool) :
    (c.print_me os pfx l ns r =
      os ++ pfx ++ (if l then "\\-" else "+-") ++ "Host: " ++ c.name ++ "\n"
      ++ sjoin ((c.addresses.enum).map fun x =>
          x.2.print_me "" (pfx ++ (if l then "  " else "| "))
            ((x.1 == c.addresses.length - 1) && c.components.isEmpty) false false)
      ++ sjoin ((c.components.enum).map fun x =>
          x.2.print_me "" (pfx ++ (if l then "  " else "| "))
            (x.1 == c.components.length - 1) c.addresses.isEmpty false))
  ∧ (∀ as a ks k, c.addresses = as ++ [a] → c.components = ks ++ [k] →
      c.print_me os pfx l ns r =
        os ++ pfx ++ (if l then "\\-" else "+-") ++ "Host: " ++ c.name ++ "\n"
        ++ sjoin ((as.enum).map fun x =>
            x.2.print_me "" (pfx ++ (if l then "  " else "| ")) false false false)
        ++ a.print_me "" (pfx ++ (if l then "  " else "| ")) false false false
        ++ sjoin ((ks.enum).map fun x =>
            x.2.print_me "" (pfx ++ (if l then "  " else "| ")) false false false)
        ++ k.print_me "" (pfx ++ (if l then "  " else "| ")) true false false) := by
  constructor
  · exact computer_print_spec c os pfx l ns r
  · intro as a ks k ha hk
    rw [computer_print_spec, ha, hk]
    rw [List.enum_append, List.enum_append]
    have hke : (ks ++ [k]).isEmpty = false := by
      cases ks <;> rfl
    have hae : (as ++ [a]).isEmpty = false := by
      cases as <;> rfl
    have hcongr :
        (ks.enum).map (fun x =>
            Component.print_me x.2 "" (pfx ++ (if l then "  " else "| "))
              (x.1 == (ks ++ [k]).length - 1) (as ++ [a]).isEmpty false)
          = (ks.enum).map (fun x =>
            Component.print_me x.2 "" (pfx ++ (if l then "  " else "| "))
              false false false) := by
      apply List.map_congr_left
      intro x hx
      have hlt := mem_enum_lt ks x hx
      have hne : (x.1 == (ks ++ [k]).length - 1) = false := by
        simp only [List.length_append, List.length_cons, List.length_nil,
          Nat.add_sub_cancel]
        simpa using Nat.ne_of_lt hlt
      rw [hne, hae]
    rw [List.map_append, List.map_append, sjoin_append, sjoin_append]
    simp only [hcongr]
    simp only [hke, hae, Bool.and_false, List.enumFrom_cons, List.enumFrom_nil,
      List.map_cons, List.map_nil]
    have hlen : (ks.length == (ks ++ [k]).length - 1) = true := by
      simp
    rw [hlen]
    simp [sjoin, str_append_assoc, String.append_empty]

/-- Witness for C4 at a concrete computer with one address and two
components: the address is rendered with the tee connector and the final
component with the corner connector. -/
theorem c4_combined_last_child_witness :
    ((((Computer.init "server1.misis.ru").add_address "192.168.1.1").add_component
        (Component.cpu (CPU.init 4 2500))).add_component
        (Component.memory (Memory.init 16000))).print_me "" "" false false false
      = "+-Host: server1.misis.ru\n| +-192.168.1.1\n| +-CPU, 4 cores @ 2500MHz\n| \\-Memory, 16000 MiB\n" := by
  have h := (c4_combined_last_child
      ((((Computer.init "server1.misis.ru").add_address "192.168.1.1").add_component
        (Component.cpu (CPU.init 4 2500))).add_component
        (Component.memory (Memory.init 16000))) "" "" false false false).2
      [] (Address.mk "192.168.1.1") [Component.cpu (CPU.init 4 2500)]
      (Component.memory (Memory.init 16000)) rfl rfl
  rw [h]
  decide

/-! State-passing translation of rendering, for the frame property "printing
mutates nothing". Every method returns the object it was invoked on next to
the stream: the returned object carries whatever field updates the method
body performed (the source performs none), and a composite re-reads its
children from the values returned by the recursive calls, so a mutation deep
in the tree would surface in the result. -/

/-- State-passing `Address.print_me`. -/
def Address.print_me_st (a : Address) (os pfx : String) (is_last no_slash is_root : Bool) :
    Address × String :=
  (a, os ++ pfx ++ (if is_last then "\\-" else "+-") ++ a.address ++ "\n")

/-- State-passing `CPU.print_me`. -/
def CPU.print_me_st (c : CPU) (os pfx : String) (is_last no_slash is_root : Bool) :
    CPU × String :=
  (c, os ++ pfx ++ (if is_last then "\\-" else "+-") ++ "CPU, " ++ toString c.cores
        ++ " cores @ " ++ toString c.mhz ++ "MHz\n")

/-- State-passing `Memory.print_me`. -/
def Memory.print_me_st (m : Memory) (os pfx : String) (is_last no_slash is_root : Bool) :
    Memory × String :=
  (m, os ++ pfx ++ (if is_last then "\\-" else "+-") ++ "Memory, " ++ toString m.size
        ++ " MiB\n")

/-- State-passing `Disk.print_me` (the partition loop reads value pairs and
only writes to the stream). -/
def Disk.print_me_st (d : Disk) (os pfx : String) (is_last no_slash is_root : Bool) :
    Disk × String :=
  let disk_type := if d.storage_type == Disk.SSD then "SSD" else "HDD"
  let os := os ++ pfx ++ (if is_last then "\\-" else "+-") ++ disk_type ++ ", "
               ++ toString d.size ++ " GiB\n"
  let new_pfx := pfx ++ (if is_last then "  " else "| ")
  (d, (d.partitions.enum).foldl
    (fun os x =>
      os ++ new_pfx ++ (if x.1 == d.partitions.length - 1 then "\\-" else "+-")
         ++ "[" ++ toString x.1 ++ "]: " ++ toString x.2.1 ++ " GiB, " ++ x.2.2 ++ "\n")
    os)

/-- State-passing dispatch over the component classes. -/
def Component.print_me_st : Component → String → String → Bool → Bool → Bool → Component × String
  | .cpu c, os, pfx, is_last, no_slash, is_root =>
    let p := c.print_me_st os pfx is_last no_slash is_root
    (.cpu p.1, p.2)
  | .memory m, os, pfx, is_last, no_slash, is_root =>
    let p := m.print_me_st os pfx is_last no_slash is_root
    (.memory p.1, p.2)
  | .disk d, os, pfx, is_last, no_slash, is_root =>
    let p := d.print_me_st os pfx is_last no_slash is_root
    (.disk p.1, p.2)

/-- State-passing `Computer.print_me`: the address and component lists are
rebuilt from the objects returned by the child calls. -/
def Computer.print_me_st (c : Computer) (os pfx : String) (is_last no_slash is_root : Bool) :
    Computer × String :=
  let new_pfx := pfx ++ (if is_last then "  " else "| ")
  let os := os ++ pfx ++ (if is_last then "\\-" else "+-") ++ "Host: " ++ c.name ++ "\n"
  let ra := (c.addresses.enum).foldl
    (fun acc x =>
      let p := x.2.print_me_st acc.2 new_pfx
        ((x.1 == c.addresses.length - 1) && c.components.isEmpty) false false
      (acc.1 ++ [p.1], p.2))
    (([] : List Address), os)
  let rk := (c.components.enum).foldl
    (fun acc x =>
      let p := x.2.print_me_st acc.2 new_pfx (x.1 == c.components.length - 1)
        c.addresses.isEmpty false
      (acc.1 ++ [p.1], p.2))
    (([] : List Component), ra.2)
  ({ c with addresses := ra.1, components := rk.1 }, rk.2)

/-- State-passing `Network.print_me`. -/
def Network.print_me_st (n : Network) (os pfx : String) (is_last no_slash is_root : Bool) :
    Network × String :=
  let os := os ++ "Network: " ++ n.name ++ "\n"
  let rc := (n.computers.enum).foldl
    (fun acc x =>
      let p := x.2.print_me_st acc.2 pfx (x.1 == n.computers.length - 1) false false
      (acc.1 ++ [p.1], p.2))
    (([] : List Computer), os)
  ({ n with computers := rc.1 }, rc.2)

theorem component_print_st (k : Component) (os pfx : String) (l ns r : Bool) :
    k.print_me_st os pfx l ns r = (k, k.print_me os pfx l ns r) := by
  cases k <;> rfl

theorem addr_loop_st (np : String) (len : Nat) (ce : Bool) :
    ∀ (l : List (Nat × Address)) (acc : List Address) (os : String),
      l.foldl
        (fun acc x =>
          let p := x.2.print_me_st acc.2 np ((x.1 == len - 1) && ce) false false
          (acc.1 ++ [p.1], p.2))
        (acc, os)
      = (acc ++ l.map (fun x => x.2),
          l.foldl (fun os x => x.2.print_me os np ((x.1 == len - 1) && ce) false false) os) := by
  intro l
  induction l with
  | nil =>
    intro acc os
    simp
  | cons a t ih =>
    intro acc os
    simp only [List.foldl_cons, List.map_cons, ih]
    simp [Address.print_me_st, Address.print_me]

theorem comp_loop_st (np : String) (len : Nat) (ae : Bool) :
    ∀ (l : List (Nat × Component)) (acc : List Component) (os : String),
      l.foldl
        (fun acc x =>
          let p := x.2.print_me_st acc.2 np (x.1 == len - 1) ae false
          (acc.1 ++ [p.1], p.2))
        (acc, os)
      = (acc ++ l.map (fun x => x.2),
          l.foldl (fun os x => x.2.print_me os np (x.1 == len - 1) ae false) os) := by
  intro l
  induction l with
  | nil =>
    intro acc os
    simp
  | cons a t ih =>
    intro acc os
    simp only [List.foldl_cons, List.map_cons, ih]
    simp [component_print_st]

theorem computer_print_st (c : Computer) (os pfx : String) (l ns r : Bool) :
    c.print_me_st os pfx l ns r = (c, c.print_me os pfx l ns r) := by
  simp only [Computer.print_me_st, Computer.print_me, addr_loop_st, comp_loop_st]
  simp [List.enum_map_snd]

theorem net_loop_st (pfx : String) (len : Nat) :
    ∀ (l : List (Nat × Computer)) (acc : List Computer) (os : String),
      l.foldl
        (fun acc x =>
          let p := x.2.print_me_st acc.2 pfx (x.1 == len - 1) false false
          (acc.1 ++ [p.1], p.2))
        (acc, os)
      = (acc ++ l.map (fun x => x.2),
          l.foldl (fun os x => x.2.print_me os pfx (x.1 == len - 1) false false) os) := by
  intro l
  induction l with
  | nil =>
    intro acc os
    simp
  | cons a t ih =>
    intro acc os
    simp only [List.foldl_cons, List.map_cons, ih]
    simp [computer_print_st]

theorem network_print_st (n : Network) (os pfx : String) (l ns r : Bool) :
    n.print_me_st os pfx l ns r = (n, n.print_me os pfx l ns r) := by
  simp only [Network.print_me_st, Network.print_me, net_loop_st]
  simp [List.enum_map_snd]

/-- Claim C10: rendering never mutates the tree — in the state-passing
translation every `print_me` returns the node it was invoked on with every
field (and every descendant) unchanged — and its only other effect is to
append text to the supplied stream. -/
theorem c10_render_does_not_mutate :
    (∀ (a : Address) (os pfx : String) (l ns r : Bool),
      a.print_me_st os pfx l ns r = (a, a.print_me os pfx l ns r))
  ∧ (∀ (c : CPU) (os pfx : String) (l ns r : Bool),
      c.print_me_st os pfx l ns r = (c, c.print_me os pfx l ns r))
  ∧ (∀ (m : Memory) (os pfx : String) (l ns r : Bool),
      m.print_me_st os pfx l ns r = (m, m.print_me os pfx l ns r))
  ∧ (∀ (d : Disk) (os pfx : String) (l ns r : Bool),
      d.print_me_st os pfx l ns r = (d, d.print_me os pfx l ns r))
  ∧ (∀ (k : Component) (os pfx : String) (l ns r : Bool),
      k.print_me_st os pfx l ns r = (k, k.print_me os pfx l ns r))
  ∧ (∀ (c : Computer) (os pfx : String) (l ns r : Bool),
      c.print_me_st os pfx l ns r = (c, c.print_me os pfx l ns r))
  ∧ (∀ (n : Network) (os pfx : String) (l ns r : Bool),
      n.print_me_st os pfx l ns r = (n, n.print_me os pfx l ns r))
  ∧ (∀ (n : Network) (os pfx : String) (l ns r : Bool),
      n.print_me os pfx l ns r = os ++ n.print_me "" pfx l ns r) := by
  exact ⟨fun _ _ _ _ _ _ => rfl, fun _ _ _ _ _ _ => rfl, fun _ _ _ _ _ _ => rfl,
    fun _ _ _ _ _ _ => rfl, component_print_st, computer_print_st,
    network_print_st, network_print_out⟩

end Template

/-!
Object-identity refinement of the data model, for the clone-independence
claim. Aliasing between a tree and its clone is observable in Python only
through the mutating methods (`Network.add_computer`,
`Computer.add_address`, `Computer.add_component`, `Disk.add_partition`), so
every object with a mutating method carries the identity `oid` of the
Python object it stands for. `clone` allocates fresh identities by
threading an allocation counter, mirroring Python's allocation of new
objects. A mutation is addressed to an object identity and applied
everywhere that identity occurs, which models mutation through every alias
of the object at once: if a clone shared a mutable object with the
original, it would share that object's identity, and mutating it after
the clone would change both trees. Immutable leaves (`Address`, `CPU`,
`Memory`, partition pairs) carry no identity: the program has no operation
that mutates them after construction.
-/

namespace ObjId

/-- `Disk` with the identity of the disk object. -/
structure Disk where
  oid : Nat
  storage_type : Nat
  size : Nat
  partitions : List (Nat × String)
deriving DecidableEq

/-- Components attachable to a computer; `CPU`/`Memory` are immutable. -/
inductive Component where
  | cpu (cores mhz : Nat)
  | memory (size : Nat)
  | disk (d : Disk)
deriving DecidableEq

/-- `Computer` with the identity of the computer object (addresses are the
raw strings: `Address` objects are immutable after construction). -/
structure Computer where
  oid : Nat
  name : String
  addresses : List String
  components : List Component
deriving DecidableEq

/-- `Network` with the identity of the network object. -/
structure Network where
  oid : Nat
  name : String
  computers : List Computer
deriving DecidableEq

/-- `clone` of a component: `CPU(cores, mhz)` / `Memory(size)` copies the
values; a new `Disk` object is allocated with the partition pairs
deep-copied. -/
def Component.clone : Component → Nat → Component × Nat
  | .cpu cores mhz, k => (.cpu cores mhz, k)
  | .memory size, k => (.memory size, k)
  | .disk d, k => (.disk ⟨k, d.storage_type, d.size, d.partitions⟩, k + 1)

/-- Element-wise clone of a component list. -/
def cloneComponents : List Component → Nat → List Component × Nat
  | [], k => ([], k)
  | c :: t, k =>
    let p := Component.clone c k
    let q := cloneComponents t p.2
    (p.1 :: q.1, q.2)

/-- `Computer.clone`: a fresh computer object, addresses value-copied,
components element-wise cloned. -/
def Computer.clone (c : Computer) (k : Nat) : Computer × Nat :=
  let q := cloneComponents c.components (k + 1)
  (⟨k, c.name, c.addresses, q.1⟩, q.2)

/-- Element-wise clone of a computer list. -/
def cloneComputers : List Computer → Nat → List Computer × Nat
  | [], k => ([], k)
  | c :: t, k =>
    let p := c.clone k
    let q := cloneComputers t p.2
    (p.1 :: q.1, q.2)

/-- `Network.clone`: a fresh network object, computers element-wise cloned. -/
def Network.clone (n : Network) (k : Nat) : Network × Nat :=
  let q := cloneComputers n.computers (k + 1)
  (⟨k, n.name, q.1⟩, q.2)

/-- Identities of the mutable objects inside a component. -/
def Component.oids : Component → List Nat
  | .disk d => [d.oid]
  | _ => []

/-- Identities of the mutable objects reached through a computer. -/
def Computer.oids (c : Computer) : List Nat :=
  c.oid :: (c.components.map Component.oids).flatten

/-- Identities of the mutable objects reached through a network. -/
def Network.oids (n : Network) : List Nat :=
  n.oid :: (n.computers.map Computer.oids).flatten

/-- `Disk.add_partition` performed on the disk object with identity `t`. -/
def Component.add_partition_at (t size : Nat) (name : String) : Component → Component
  | .disk d =>
    if d.oid = t then .disk { d with partitions := d.partitions ++ [(size, name)] }
    else .disk d
  | k => k

/-- `Computer.add_component` performed on the computer object with
identity `t`. -/
def Computer.add_component_at (t : Nat) (comp : Component) (c : Computer) : Computer :=
  if c.oid = t then { c with components := c.components ++ [comp] } else c

/-- `Computer.add_address` performed on the computer object with
identity `t`. -/
def Computer.add_address_at (t : Nat) (addr : String) (c : Computer) : Computer :=
  if c.oid = t then { c with addresses := c.addresses ++ [addr] } else c

/-- `Disk.add_partition` performed on the disk object with identity `t`,
wherever it sits inside the computer. -/
def Computer.add_partition_at (t size : Nat) (name : String) (c : Computer) : Computer :=
  { c with components := c.components.map (Component.add_partition_at t size name) }

/-- `Network.add_computer` performed on the network object with
identity `t`. -/
def Network.add_computer_at (t : Nat) (comp : Computer) (n : Network) : Network :=
  if n.oid = t then { n with computers := n.computers ++ [comp] } else n

/-- `Computer.add_component` on the computer object with identity `t`,
wherever it is reached through the network. -/
def Network.add_component_at (t : Nat) (comp : Component) (n : Network) : Network :=
  { n with computers := n.computers.map (Computer.add_component_at t comp) }

/-- `Computer.add_address` on the computer object with identity `t`,
wherever it is reached through the network. -/
def Network.add_address_at (t : Nat) (addr : String) (n : Network) : Network :=
  { n with computers := n.computers.map (Computer.add_address_at t addr) }

/-- `Disk.add_partition` on the disk object with identity `t`, wherever it
is reached through the network. -/
def Network.add_partition_at (t size : Nat) (name : String) (n : Network) : Network :=
  { n with computers := n.computers.map (Computer.add_partition_at t size name) }

/-! Frame lemmas: a mutation addressed to an identity that does not occur in
a tree leaves the tree unchanged. -/

theorem component_frame (t size : Nat) (name : String) (k : Component)
    (h : t ∉ k.oids) : Component.add_partition_at t size name k = k := by
  cases k with
  | cpu cores mhz => rfl
  | memory s => rfl
  | disk d =>
    have hne : d.oid ≠ t := by
      intro heq
      exact h (by simp [Component.oids, heq])
    simp [Component.add_partition_at, hne]

theorem computer_frame (t : Nat) (comp : Component) (addr : String)
    (size : Nat) (name : String) (c : Computer) (h : t ∉ c.oids) :
    c.add_component_at t comp = c
    ∧ c.add_address_at t addr = c
    ∧ c.add_partition_at t size name = c := by
  have h1 : c.oid ≠ t := by
    intro heq
    exact h (by simp [Computer.oids, heq])
  have h2 : ∀ k ∈ c.components, t ∉ k.oids := by
    intro k hk ht
    refine h ?_
    simp only [Computer.oids, List.mem_cons]
    refine Or.inr (List.mem_flatten.mpr ⟨k.oids, List.mem_map_of_mem _ hk, ht⟩)
  refine ⟨?_, ?_, ?_⟩
  · simp [Computer.add_component_at, h1]
  · simp [Computer.add_address_at, h1]
  · have : c.components.map (Component.add_partition_at t size name) = c.components := by
      rw [List.map_congr_left (fun k hk => component_frame t size name k (h2 k hk))]
      exact List.map_id _
    simp [Computer.add_partition_at, this]

theorem network_frame (t : Nat) (comp : Component) (cu : Computer)
    (addr : String) (size : Nat) (name : String) (n : Network) (h : t ∉ n.oids) :
    n.add_component_at t comp = n
    ∧ n.add_address_at t addr = n
    ∧ n.add_partition_at t size name = n
    ∧ n.add_computer_at t cu = n := by
  have h1 : n.oid ≠ t := by
    intro heq
    exact h (by simp [Network.oids, heq])
  have h2 : ∀ c ∈ n.computers, t ∉ c.oids := by
    intro c hc ht
    refine h ?_
    simp only [Network.oids, List.mem_cons]
    refine Or.inr (List.mem_flatten.mpr ⟨c.oids, List.mem_map_of_mem _ hc, ht⟩)
  refine ⟨?_, ?_, ?_, ?_⟩
  · have : n.computers.map (Computer.add_component_at t comp) = n.computers := by
      rw [List.map_congr_left
        (fun c hc => (computer_frame t comp addr size name c (h2 c hc)).1)]
      exact List.map_id _
    simp [Network.add_component_at, this]
  · have : n.computers.map (Computer.add_address_at t addr) = n.computers := by
      rw [List.map_congr_left
        (fun c hc => (computer_frame t comp addr size name c (h2 c hc)).2.1)]
      exact List.map_id _
    simp [Network.add_address_at, this]
  · have : n.computers.map (Computer.add_partition_at t size name) = n.computers := by
      rw [List.map_congr_left
        (fun c hc => (computer_frame t comp addr size name c (h2 c hc)).2.2)]
      exact List.map_id _
    simp [Network.add_partition_at, this]
  · simp [Network.add_computer_at, h1]

/-! Freshness: `clone` never re-uses an identity below the allocation
counter it is given, and only advances the counter. -/

theorem component_clone_counter_le (k : Component) (i : Nat) :
    i ≤ (Component.clone k i).2 := by
  cases k <;> simp [Component.clone]

theorem component_clone_oids_ge (k : Component) (i : Nat) :
    ∀ j ∈ (Component.clone k i).1.oids, i ≤ j := by
  cases k <;> simp [Component.clone, Component.oids]

theorem cloneComponents_counter_le (l : List Component) :
    ∀ i : Nat, i ≤ (cloneComponents l i).2 := by
  induction l with
  | nil => intro i; simp [cloneComponents]
  | cons c t ih =>
    intro i
    simp only [cloneComponents]
    exact le_trans (component_clone_counter_le c i) (ih _)

theorem cloneComponents_oids_ge (l : List Component) :
    ∀ (i : Nat) (k : Component), k ∈ (cloneComponents l i).1 → ∀ j ∈ k.oids, i ≤ j := by
  induction l with
  | nil =>
    intro i k hk
    simp [cloneComponents] at hk
  | cons c t ih =>
    intro i k hk j hj
    simp only [cloneComponents, List.mem_cons] at hk
    rcases hk with hk | hk
    · subst hk
      exact component_clone_oids_ge c i j hj
    · exact le_trans (component_clone_counter_le c i) (ih _ k hk j hj)

theorem computer_clone_counter_le (c : Computer) (i : Nat) :
    i ≤ (c.clone i).2 := by
  simp only [Computer.clone]
  exact le_trans (Nat.le_succ i) (cloneComponents_counter_le _ _)

theorem computer_clone_oids_ge (c : Computer) (i : Nat) :
    ∀ j ∈ (c.clone i).1.oids, i ≤ j := by
  intro j hj
  simp only [Computer.clone, Computer.oids, List.mem_cons] at hj
  rcases hj with hj | hj
  · exact le_of_eq hj.symm
  · obtain ⟨l, hl, hjl⟩ := List.mem_flatten.mp hj
    obtain ⟨k, hk, rfl⟩ := List.mem_map.mp hl
    exact le_trans (Nat.le_succ i) (cloneComponents_oids_ge _ _ k hk j hjl)

theorem cloneComputers_counter_le (l : List Computer) :
    ∀ i : Nat, i ≤ (cloneComputers l i).2 := by
  induction l with
  | nil => intro i; simp [cloneComputers]
  | cons c t ih =>
    intro i
    simp only [cloneComputers]
    exact le_trans (computer_clone_counter_le c i) (ih _)

theorem cloneComputers_oids_ge (l : List Computer) :
    ∀ (i : Nat) (c : Computer), c ∈ (cloneComputers l i).1 → ∀ j ∈ c.oids, i ≤ j := by
  induction l with
  | nil =>
    intro i c hc
    simp [cloneComputers] at hc
  | cons c t ih =>
    intro i cu hcu j hj
    simp only [cloneComputers, List.mem_cons] at hcu
    rcases hcu with hcu | hcu
    · subst hcu
      exact computer_clone_oids_ge c i j hj
    · exact le_trans (computer_clone_counter_le c i) (ih _ cu hcu j hj)

theorem network_clone_oids_ge (n : Network) (k : Nat) :
    ∀ j ∈ ((n.clone k).1).oids, k ≤ j := by
  intro j hj
  simp only [Network.clone, Network.oids, List.mem_cons] at hj
  rcases hj with hj | hj
  · exact le_of_eq hj.symm
  · obtain ⟨l, hl, hjl⟩ := List.mem_flatten.mp hj
    obtain ⟨c, hc, rfl⟩ := List.mem_map.mp hl
    exact le_trans (Nat.le_succ k) (cloneComputers_oids_ge _ _ c hc j hjl)

/-- Claim C3: clone independence. If every object identity of `n` lies
below the allocation counter `k` handed to `clone`, then the clone
`x = (n.clone k).1` shares no mutable object with `n`: every mutation
(`add_component`, `add_address`, `add_partition`, `add_computer`) addressed
to an object reached through `x` leaves every node reached through `n`
unchanged — in particular every component count in `n` — and vice versa. -/
theorem c3_clone_independence (n : Network) (k : Nat)
    (h : ∀ i ∈ n.oids, i < k) :
    (∀ t ∈ ((n.clone k).1).oids,
      ∀ (comp : Component) (cu : Computer) (size : Nat) (nm addr : String),
        n.add_component_at t comp = n
        ∧ n.add_address_at t addr = n
        ∧ n.add_partition_at t size nm = n
        ∧ n.add_computer_at t cu = n)
  ∧ (∀ t ∈ n.oids,
      ∀ (comp : Component) (cu : Computer) (size : Nat) (nm addr : String),
        ((n.clone k).1).add_component_at t comp = (n.clone k).1
        ∧ ((n.clone k).1).add_address_at t addr = (n.clone k).1
        ∧ ((n.clone k).1).add_partition_at t size nm = (n.clone k).1
        ∧ ((n.clone k).1).add_computer_at t cu = (n.clone k).1) := by
  constructor
  · intro t ht comp cu size nm addr
    have hfresh : k ≤ t := network_clone_oids_ge n k t ht
    have hnot : t ∉ n.oids := by
      intro hmem
      exact absurd hfresh (Nat.not_le.mpr (h t hmem))
    obtain ⟨h1, h2, h3, h4⟩ := network_frame t comp cu addr size nm n hnot
    exact ⟨h1, h2, h3, h4⟩
  · intro t ht comp cu size nm addr
    have hlt : t < k := h t ht
    have hnot : t ∉ ((n.clone k).1).oids := by
      intro hmem
      exact absurd (network_clone_oids_ge n k t hmem) (Nat.not_le.mpr hlt)
    obtain ⟨h1, h2, h3, h4⟩ := network_frame t comp cu addr size nm ((n.clone k).1) hnot
    exact ⟨h1, h2, h3, h4⟩

/-- Witness for C3: a concrete network (identities 0–2) cloned at counter 3;
mutating the clone's root (identity 3) leaves the original unchanged, and
mutating the original's root (identity 0) leaves the clone unchanged. -/
theorem c3_clone_independence_witness :
    (Network.add_component_at 3 (Component.cpu 2 1000)
        ⟨0, "net", [⟨1, "host", ["10.0.0.1"], [Component.disk ⟨2, 1, 10, []⟩]⟩]⟩
      = ⟨0, "net", [⟨1, "host", ["10.0.0.1"], [Component.disk ⟨2, 1, 10, []⟩]⟩]⟩)
  ∧ (Network.add_computer_at 0 ⟨7, "new", [], []⟩
        ((Network.clone ⟨0, "net", [⟨1, "host", ["10.0.0.1"], [Component.disk ⟨2, 1, 10, []⟩]⟩]⟩ 3).1)
      = (Network.clone ⟨0, "net", [⟨1, "host", ["10.0.0.1"], [Component.disk ⟨2, 1, 10, []⟩]⟩]⟩ 3).1) := by
  have h := c3_clone_independence
    ⟨0, "net", [⟨1, "host", ["10.0.0.1"], [Component.disk ⟨2, 1, 10, []⟩]⟩]⟩ 3
    (by decide)
  exact ⟨(h.1 3 (by decide) (Component.cpu 2 1000) ⟨7, "new", [], []⟩ 1 "p" "a").1,
    (h.2 0 (by decide) (Component.cpu 2 1000) ⟨7, "new", [], []⟩ 1 "p" "a").2.2.2⟩

end ObjId
